import Mathlib

/-!
Verification development for the correlation-and-sweep subsystem of the
gxp-deviation-risk-sentinel repository (src/sentinel/engine/correlation.py,
src/sentinel/engine/suppression.py, src/sentinel/engine/routing.py and the
`_sweep_timeouts` driver in src/sentinel/app.py).

Modelling conventions (shallow embedding):
* Instants are integers counting microseconds since the Unix epoch.
  `parseIso` embeds the `_parse_iso` helpers (strip, trailing "Z" rewritten
  to "+00:00", then `datetime.fromisoformat`) for the full extended form
  `YYYY-MM-DDTHH:MM:SS[.f+][+-]HH:MM`.  Offset-free (naive) strings are
  rejected by the model: in the Python code a naive datetime either raises
  on the first aware comparison or is dropped inside a try block, so no
  accepted record carries one.  Shortened ISO forms are outside the model.
* JSON values are the inductive `Json`; a loaded Python dict is an `obj`
  with unique keys (json.loads deduplicates).  Non-string scalar fields of
  a record are represented by their Python `str()` rendering, which is how
  every access site (`_safe_str`, `str(... or "")`) observes them; compound
  values are rendered by a fixed non-empty placeholder since only their
  non-emptiness and unparsability as timestamps are ever observed.
-/

/-- Whitespace-trim on an exploded string (kernel-computable model of
`str.strip()`). -/
def trimChars (cs : List Char) : List Char :=
  ((cs.dropWhile Char.isWhitespace).reverse.dropWhile Char.isWhitespace).reverse

/-- Kernel-computable model of `str.strip()`. -/
def pyTrim (s : String) : String := ⟨trimChars s.toList⟩

/-- Embeds `_safe_str`: `None` stays `None`, anything else is trimmed and an
empty result becomes `None`. -/
def safeStr : Option String → Option String
  | none => none
  | some s => if pyTrim s = "" then none else some (pyTrim s)

/-- Embeds `str(x or "")` for an optional string `x` (falsy `None` and `""`
both yield `""`, so this is just `getD ""`). -/
def orEmpty (x : Option String) : String := x.getD ""

/-- First-match association lookup, the model of `dict.get` on a dict with
unique keys. -/
def assocGet {β : Type} : List (String × β) → String → Option β
  | [], _ => none
  | (k', v) :: rest, k => if k' = k then some v else assocGet rest k

/-- Association update, the model of `d[k] = v` on a Python dict: replaces
the first binding of `k` in place, or appends a fresh binding. -/
def assocSet {β : Type} : List (String × β) → String → β → List (String × β)
  | [], k, v => [(k, v)]
  | (k', v') :: rest, k, v =>
    if k' = k then (k, v) :: rest else (k', v') :: assocSet rest k v

/-- Stable insertion of a keyed element before the first strictly greater
key; building block of the model of `json.dumps(sort_keys=True)`. -/
def sortInsert {β : Type} (x : String × β) : List (String × β) → List (String × β)
  | [] => [x]
  | y :: ys => if y.1 < x.1 then y :: sortInsert x ys else x :: y :: ys

/-- Stable sort of an association list by key, the model of the key ordering
applied by `json.dumps(sort_keys=True)` to a JSON object. -/
def sortByKey {β : Type} : List (String × β) → List (String × β)
  | [] => []
  | x :: xs => sortInsert x (sortByKey xs)

/-- Value of a decimal digit character. -/
def digitVal (c : Char) : Option Nat :=
  if c.isDigit then some (c.toNat - 48) else none

/-- Two-digit decimal field. -/
def parse2 (a b : Char) : Option Nat := do
  let x ← digitVal a
  let y ← digitVal b
  pure (10 * x + y)

/-- Four-digit decimal field. -/
def parse4 (a b c d : Char) : Option Nat := do
  let x ← parse2 a b
  let y ← parse2 c d
  pure (100 * x + y)

/-- Leading run of decimal digits and the remainder. -/
def takeDigits : List Char → List Nat × List Char
  | [] => ([], [])
  | c :: cs =>
    match digitVal c with
    | some d => let (ds, rest) := takeDigits cs; (d :: ds, rest)
    | none => ([], c :: cs)

/-- Fractional-second digits scaled to microseconds; digits beyond the sixth
are truncated, as `datetime.fromisoformat` does. -/
def fracMicros (ds : List Nat) : Nat :=
  let t := ds.take 6
  (t ++ List.replicate (6 - t.length) 0).foldl (fun acc d => acc * 10 + d) 0

/-- Gregorian leap-year test. -/
def isLeap (y : Nat) : Bool :=
  y % 4 == 0 && (y % 100 != 0 || y % 400 == 0)

/-- Length of a month, as validated by `datetime`. -/
def daysInMonth (y m : Nat) : Nat :=
  if m = 2 then (if isLeap y then 29 else 28)
  else if m = 4 ∨ m = 6 ∨ m = 9 ∨ m = 11 then 30
  else 31

/-- Days from 1970-01-01 to the given civil date (standard era-based civil
calendar conversion, valid for years 1..9999). -/
def daysFromCivil (y m d : Nat) : Int :=
  let yy := y - (if m ≤ 2 then 1 else 0)
  let era := yy / 400
  let yoe := yy % 400
  let mp := if 2 < m then m - 3 else m + 9
  let doy := (153 * mp + 2) / 5 + (d - 1)
  let doe := yoe * 365 + yoe / 4 - yoe / 100 + doy
  ((era : Int) * 146097 + (doe : Int)) - 719468

/-- UTC offset in microseconds; `[]` is a naive timestamp and is rejected
(see the header note). -/
def parseOffset : List Char → Option Int
  | [sign, a, b, ':', c, d] => do
    let oh ← parse2 a b
    let om ← parse2 c d
    if oh ≤ 23 ∧ om ≤ 59 then
      let mag : Int := ((oh * 3600 + om * 60 : Nat) : Int) * 1000000
      if sign = '+' then some mag
      else if sign = '-' then some (-mag)
      else none
    else none
  | _ => none

/-- Core of the ISO-8601 parse on an exploded string. -/
def parseIsoCore : List Char → Option Int
  | y1 :: y2 :: y3 :: y4 :: '-' :: m1 :: m2 :: '-' :: d1 :: d2 :: 'T' ::
      h1 :: h2 :: ':' :: n1 :: n2 :: ':' :: s1 :: s2 :: rest => do
    let y ← parse4 y1 y2 y3 y4
    let mo ← parse2 m1 m2
    let dy ← parse2 d1 d2
    let hh ← parse2 h1 h2
    let mi ← parse2 n1 n2
    let ss ← parse2 s1 s2
    let fr ←
      match rest with
      | '.' :: cs =>
        let (ds, rest1) := takeDigits cs
        if ds.isEmpty then none else some ((fracMicros ds, rest1) : Nat × List Char)
      | other => some ((0, other) : Nat × List Char)
    let offUs ← parseOffset fr.2
    if 1 ≤ y ∧ y ≤ 9999 ∧ 1 ≤ mo ∧ mo ≤ 12 ∧ 1 ≤ dy ∧ dy ≤ daysInMonth y mo ∧
        hh ≤ 23 ∧ mi ≤ 59 ∧ ss ≤ 59 then
      some ((daysFromCivil y mo dy * 86400 +
        ((hh * 3600 + mi * 60 + ss : Nat) : Int)) * 1000000 + (fr.1 : Int) - offUs)
    else none
  | _ => none

/-- Embeds `_parse_iso` (correlation.py and app.py): strip, rewrite a
trailing "Z" to "+00:00", then parse; result is microseconds since epoch. -/
def parseIso (ts : String) : Option Int :=
  let cs := trimChars ts.toList
  let cs :=
    match cs.reverse with
    | 'Z' :: rest => rest.reverse ++ ['+', '0', '0', ':', '0', '0']
    | _ => cs
  parseIsoCore cs

/-- Embeds `int(dt.timestamp())`: whole epoch seconds of an instant,
truncated toward zero. -/
def usToEpochSec (us : Int) : Int :=
  if 0 ≤ us then us / 1000000 else -((-us) / 1000000)

theorem parseIso_sample_open :
    parseIso "2024-01-01T00:00:00Z" = some 1704067200000000 := by decide

theorem parseIso_sample_plus :
    parseIso "2024-01-01T01:00:00+00:00" = some 1704070800000000 := by decide

theorem parseIso_sample_naive : parseIso "2024-01-01T00:00:00" = none := by decide

/-! ## Correlation state data model (correlation.py) -/

/-- JSON values as loaded by `json.loads`; an `obj` is a Python dict (unique
keys, insertion order). -/
inductive Json where
  | null
  | bool (b : Bool)
  | num (n : Int)
  | str (s : String)
  | arr (elems : List Json)
  | obj (fields : List (String × Json))

/-- Python `str()` rendering of a scalar JSON value, as observed through
`_safe_str` / `str(... or "")`.  Compound values get a fixed non-empty
placeholder: only their non-emptiness and failure to parse as a timestamp
are ever observed by the code under study. -/
def pyStr : Json → String
  | .null => "None"
  | .bool b => if b then "True" else "False"
  | .num n => toString n
  | .str s => s
  | .arr _ => "[compound]"
  | .obj _ => "{compound}"

/-- First-match field lookup on a JSON object, the model of `dict.get`. -/
def jGet (fields : List (String × Json)) (k : String) : Option Json :=
  assocGet fields k

/-- A stored correlation record, as created by `add_event`:
`{event_id, event_type, event_timestamp, batch_token}`.  A field holds
`none` when the key is absent or its value is JSON null (both read back as
Python `None`); any other value is observed through `pyStr`. -/
structure CorrRecord where
  event_id : Option String
  event_type : Option String
  event_timestamp : Option String
  batch_token : Option String
deriving DecidableEq

/-- One element of a group's list: either a record dict or some other JSON
value (skipped by both prune and sweep via `isinstance(e, dict)`). -/
inductive Entry where
  | notDict
  | record (r : CorrRecord)
deriving DecidableEq

/-- The JSON value stored under a group key: a list of entries, or some
non-list value (skipped or dropped via `isinstance(events, list)`). -/
inductive GroupVal where
  | notList
  | list (entries : List Entry)
deriving DecidableEq

/-- A validated state document: `version` (None when the key is absent) and
the `groups` mapping. -/
structure Doc where
  version : Option String
  groups : List (String × GroupVal)
deriving DecidableEq

/-- Embeds `CorrelationStore._empty_doc`. -/
def emptyDoc : Doc := ⟨some "0.1", []⟩

/-- Field decode: absent key and JSON null both become `none` (Python
`dict.get` returns `None` for both); other values are observed via
`pyStr`. -/
def decodeField (fields : List (String × Json)) (k : String) : Option String :=
  match jGet fields k with
  | none => none
  | some .null => none
  | some v => some (pyStr v)

/-- Decode of one element of a group list. -/
def decodeEntry : Json → Entry
  | .obj fs =>
    .record ⟨decodeField fs "event_id", decodeField fs "event_type",
      decodeField fs "event_timestamp", decodeField fs "batch_token"⟩
  | _ => .notDict

/-- Decode of a group value. -/
def decodeGroupVal : Json → GroupVal
  | .arr es => .list (es.map decodeEntry)
  | _ => .notList

/-- Version strings are only ever observed for presence and Python
truthiness, so non-string values are quotiented to an equal-truthiness
string. -/
def decodeVersionVal : Json → String
  | .str s => s
  | .null => ""
  | .bool b => if b then "True" else ""
  | .num n => if n = 0 then "" else toString n
  | .arr l => if l.isEmpty then "" else "[compound]"
  | .obj l => if l.isEmpty then "" else "{compound}"

/-- The validation performed by `_read_safe` on a parsed JSON value: the
root must be an object and `groups` must be present and be an object.
Success yields the typed document. -/
def decodeDoc : Json → Option Doc
  | .obj fs =>
    match jGet fs "groups" with
    | some (.obj gfs) =>
      some ⟨(jGet fs "version").map decodeVersionVal,
        gfs.map (fun kv => (kv.1, decodeGroupVal kv.2))⟩
    | _ => none
  | _ => none

/-- Encode of one group element for `_write_atomic` (record keys emitted in
the sorted order `json.dumps(sort_keys=True)` uses; an absent field is an
absent key).  A preserved non-dict element is represented by `null`: only
its non-dict-ness is observable on re-read. -/
def encodeEntry : Entry → Json
  | .notDict => .null
  | .record r =>
    .obj ((match r.batch_token with | none => [] | some s => [("batch_token", Json.str s)]) ++
      (match r.event_id with | none => [] | some s => [("event_id", Json.str s)]) ++
      (match r.event_timestamp with | none => [] | some s => [("event_timestamp", Json.str s)]) ++
      (match r.event_type with | none => [] | some s => [("event_type", Json.str s)]))

/-- Encode of a group value; a preserved non-list value is represented by
`null` (only its non-list-ness is observable on re-read). -/
def encodeGroupVal : GroupVal → Json
  | .notList => .null
  | .list es => .arr (es.map encodeEntry)

/-- Embeds the serialization of `_write_atomic` (`json.dumps(obj,
sort_keys=True)`): group keys are emitted in sorted order, and the
top-level keys come out as `groups` before `version`. -/
def encodeDoc (d : Doc) : Json :=
  .obj ([("groups", Json.obj ((sortByKey d.groups).map
      (fun kv => (kv.1, encodeGroupVal kv.2))))] ++
    (match d.version with | none => [] | some s => [("version", Json.str s)]))

/-- The observable content of the state file: missing (reads raise),
blank, unparsable, or a parsed JSON value. -/
inductive FileRead where
  | missing
  | blank
  | notJson
  | val (j : Json)

/-- File content after `_write_atomic(d)`: the canonical serialization of
`d`. -/
def writeAtomic (d : Doc) : FileRead := .val (encodeDoc d)

/-- Embeds `_read_safe(recover=True)`: returns the document plus the file
content after the call.  Any read/parse/validation failure rewrites a
fresh empty document; a valid document with a missing `version` key gets
the version defaulted in memory only (no write). -/
def readSafe : FileRead → Doc × FileRead
  | .missing => (emptyDoc, writeAtomic emptyDoc)
  | .blank => (emptyDoc, writeAtomic emptyDoc)
  | .notJson => (emptyDoc, writeAtomic emptyDoc)
  | .val j =>
    match decodeDoc j with
    | none => (emptyDoc, writeAtomic emptyDoc)
    | some d =>
      (⟨some (d.version.getD "0.1"), d.groups⟩, .val j)

/-- Python string-or-else on an already-decoded optional string:
`x or dflt` (both `None` and `""` are falsy). -/
def orFalsy (x : Option String) (dflt : String) : String :=
  match x with
  | none => dflt
  | some s => if s = "" then dflt else s

/-- Embeds `CorrelationStore.add_event`.  `nowIso` is the rendering of the
current UTC time used when the timestamp argument is blank.  Returns the
file content after the call. -/
def addEvent (fr : FileRead) (group_key event_id event_type event_timestamp : String)
    (batch_token : Option String) (nowIso : String) : FileRead :=
  let (doc, fr') := readSafe fr
  let gk := pyTrim group_key
  if gk = "" then fr'
  else
    let lst :=
      match assocGet doc.groups gk with
      | some (.list es) => es
      | _ => []
    let ts := pyTrim event_timestamp
    let ts := if ts = "" then nowIso else ts
    let record : CorrRecord :=
      ⟨some event_id, some event_type, some ts,
        match batch_token with
        | none => none
        | some bt => if bt = "" then none else some bt⟩
    let groups := assocSet doc.groups gk (.list (lst ++ [.record record]))
    writeAtomic ⟨some (orFalsy doc.version "0.1"), groups⟩

/-- Record filter used by `prune`: keep a dict entry whose timestamp parses
and is not strictly older than the cutoff; drop everything else. -/
def pruneKeep (cutoff : Int) : Entry → Bool
  | .notDict => false
  | .record r =>
    match parseIso (pyTrim (orEmpty r.event_timestamp)) with
    | some t => decide (cutoff ≤ t)
    | none => false

/-- Per-group body of the prune loop: a non-list group is dropped, a list
keeps only `pruneKeep` survivors, and a group left empty is dropped. -/
def pruneGroupStep (cutoff : Int) (kv : String × GroupVal) :
    Option (String × GroupVal) :=
  match kv.2 with
  | .notList => none
  | .list es =>
    let kept := es.filter (pruneKeep cutoff)
    if kept.isEmpty then none else some (kv.1, GroupVal.list kept)

/-- Document-level transform of `CorrelationStore.prune` at invocation time
`now` (microseconds): drops stale and corrupted records, drops non-list
groups, and drops groups whose kept list is empty. -/
def pruneDoc (d : Doc) (maxAgeMinutes : Int) (now : Int) : Doc :=
  ⟨some (orFalsy d.version "0.1"),
    d.groups.filterMap (pruneGroupStep (now - maxAgeMinutes * 60000000))⟩

/-- Embeds `CorrelationStore.prune`: safe read, transform, atomic write. -/
def prune (fr : FileRead) (maxAgeMinutes : Int) (now : Int) : FileRead :=
  let (doc, _) := readSafe fr
  writeAtomic (pruneDoc doc maxAgeMinutes now)

/-- Embeds `CorrelationStore.get_group_events`: returns the stored value
for the key (default empty list) plus the file content after the call. -/
def getGroupEvents (fr : FileRead) (group_key : String) : GroupVal × FileRead :=
  let (doc, fr') := readSafe fr
  ((assocGet doc.groups group_key).getD (.list []), fr')

/-- A file content on which `_read_safe` takes its recovery branch: the
file is missing, empty, not JSON, its root is not an object, or `groups`
is missing or not an object. -/
def corruptFile : FileRead → Bool
  | .missing => true
  | .blank => true
  | .notJson => true
  | .val j => (decodeDoc j).isNone

/-! ## Suppression store (suppression.py) -/

/-- A stored `last_emitted_at` value as observed by `check_and_update`:
either a parsable aware timestamp (the store itself only ever writes
`now.isoformat()`, which parses back to `now`), or a value that is falsy
or fails to parse — both of which take the fail-open path. -/
inductive StoredTs where
  | parsed (t : Int)
  | unparsable
deriving DecidableEq

/-- Suppression state mapping `suppression_key -> last_emitted_at`. -/
def SuppSt : Type := List (String × StoredTs)

/-- Embeds the `SuppressionDecision` dataclass. -/
structure SuppressionDecision where
  suppressed : Bool
  suppression_key : String
  window_minutes : Int
  last_emitted_at : Option StoredTs
  reason : Option String
deriving DecidableEq

/-- Embeds `SuppressionStore.check_and_update` at current time `now`
(microseconds).  The float comparison `delta_min < float(window_minutes)`
is modelled exactly in integer microseconds. -/
def checkAndUpdate (st : SuppSt) (key : String) (window : Int) (now : Int) :
    SuppressionDecision × SuppSt :=
  let emit : SuppressionDecision × SuppSt :=
    (⟨false, key, window, some (.parsed now), some "EMIT_ALLOWED"⟩,
      assocSet st key (.parsed now))
  match assocGet st key with
  | some (.parsed t) =>
    if now - t < window * 60000000 then
      (⟨true, key, window, some (.parsed t), some "WITHIN_WINDOW"⟩, st)
    else emit
  | some .unparsable => emit
  | none => emit

/-! ## Routing policy (routing.py) -/

/-- The loaded routing policy: the allow-list and the alias map. -/
structure RoutingPolicyM where
  allowed : List String
  aliases : List (String × String)

/-- Sorted deduplicated consumer list, the model of
`sorted(set(normalized))` under the code-point string order. -/
def sortedDedup (l : List String) : List String :=
  ((l.eraseDups.map (fun s => (s, ()))) |> sortByKey).map (fun kv => kv.1)

/-- Embeds `RoutingPolicy.normalize`: `None` and `[]` short-circuit to an
empty decision; otherwise each consumer is trimmed and alias-mapped, the
allow-list is enforced (failure raises, modelled as `none`), and the result
is sorted and deduplicated. -/
def normalizeConsumers (p : RoutingPolicyM) (consumers : Option (List String)) :
    Option (List String) :=
  match consumers with
  | none => some []
  | some cs =>
    if cs.isEmpty then some []
    else
      let normalized := cs.map (fun c => let c := pyTrim c; (assocGet p.aliases c).getD c)
      if normalized.all (fun c => p.allowed.contains c) then some (sortedDedup normalized)
      else none

/-! ## Timeout sweep (_sweep_timeouts in app.py) -/

/-- Embeds `_parse_iso(_safe_str(e.get("event_timestamp")) or
_now_utc_iso())`: a missing/blank timestamp falls back to the current
time (whose isoformat rendering parses back to `now`). -/
def resolveTs (tsField : Option String) (now : Int) : Option Int :=
  match safeStr tsField with
  | none => some now
  | some s => parseIso s

/-- A synthetic alert-input record produced for an unresolved timeout
(lines 241-257 of app.py).  `event_id` is the original id or the
deterministic `SWEEP-{token}-{epoch-seconds}` derivation; `event_ts` is
the instant `opened_at + threshold` that the code renders into the
`event_timestamp` field; the original record is kept for provenance.
The constant UNKNOWN_* backfill fields and the sweep-time `received_at`
are not observed by any claim and are omitted. -/
structure Synth where
  event_id : String
  event_ts : Int
  batch_token : String
  base : CorrRecord
deriving DecidableEq

/-- Completion-index contribution of one group element (the body of the
first loop over `events`): pair-typed records with a non-empty batch token
and a resolvable timestamp. -/
def completionOf (pairType : String) (now : Int) : Entry → Option (String × Int)
  | .notDict => none
  | .record r =>
    if safeStr r.event_type ≠ some pairType then none
    else
      match safeStr r.batch_token with
      | none => none
      | some bt =>
        match resolveTs r.event_timestamp now with
        | none => none
        | some ts => some (bt, ts)

/-- The completion timestamps indexed under one batch token, in list order
(equals `completions.get(bt, [])` after the first loop). -/
def completionsFor (pairType : String) (now : Int) (es : List Entry) (bt : String) :
    List Int :=
  (es.filterMap (completionOf pairType now)).filterMap
    (fun p => if p.1 = bt then some p.2 else none)

/-- The body of the openings loop up to the synthesis of the alert-input:
returns the synthetic record for an unresolved overdue STEP_OPENED, and
`none` when the element is skipped (wrong type, no token, unparsable
timestamp, not yet overdue, or resolved by a completion inside the
window). -/
def openCandidate (thresholdMin : Int) (now : Int) (completions : String → List Int) :
    Entry → Option Synth
  | .notDict => none
  | .record r =>
    if safeStr r.event_type ≠ some "STEP_OPENED" then none
    else
      match safeStr r.batch_token with
      | none => none
      | some bt =>
        match resolveTs r.event_timestamp now with
        | none => none
        | some openedAt =>
          if now < openedAt + thresholdMin * 60000000 then none
          else if (completions bt).any (fun t =>
              decide (openedAt ≤ t) && decide (t ≤ openedAt + thresholdMin * 60000000)) then
            none
          else
            some ⟨(safeStr r.event_id).getD
                ("SWEEP-" ++ bt ++ "-" ++ toString (usToEpochSec openedAt)),
              openedAt + thresholdMin * 60000000, bt, r⟩

/-- All synthetic alert-inputs of one group, in record order. -/
def candidatesGroup (pairType : String) (thresholdMin : Int) (now : Int)
    (es : List Entry) : List Synth :=
  es.filterMap (openCandidate thresholdMin now (completionsFor pairType now es))

/-- The `groups` value the sweep works from, given the raw parsed state
file: a non-object root or a missing `groups` key yield an empty mapping;
a present non-object `groups` value is the malformed case (`none`). -/
def sweepGroups : Json → Option (List (String × Json))
  | .obj fs =>
    match jGet fs "groups" with
    | none => some []
    | some (.obj gfs) => some gfs
    | some _ => none
  | _ => some []

/-- All synthetic alert-inputs of a sweep over a parsed state value, in
group order then record order (non-list group values are skipped). -/
def sweepCandidates (pairType : String) (thresholdMin : Int) (now : Int)
    (gs : List (String × Json)) : List Synth :=
  (gs.filterMap (fun kv =>
    match decodeGroupVal kv.2 with
    | .notList => none
    | .list es => some (candidatesGroup pairType thresholdMin now es))).flatten

/-- The suppression key `_suppression_key(synthetic_event, rule_id)`.  For
records stored by `add_event` the synthetic event's business dimensions are
exactly the UNKNOWN_* backfill constants (the stored record carries none of
them), `dbr_template_version` defaults to "0.1", and the batch token is the
candidate's token. -/
def suppKey (ruleId : String) (c : Synth) : String :=
  ruleId ++ "|UNKNOWN_SITE|UNKNOWN_AREA|UNKNOWN_PRODUCT|UNKNOWN_TEMPLATE|0.1|" ++
    "UNKNOWN_STEP|UNKNOWN_SECTION|" ++ c.batch_token

/-- Outcome of the per-candidate pipeline (lines 259-330 of app.py). -/
inductive StepResult where
  | routingRejected
  | suppressed
  | schemaDropped
  | persisted
deriving DecidableEq

/-- One pass of the per-candidate pipeline: routing normalization (fails
closed, skip), suppression gate (suppressed, skip, state untouched), alert
build plus schema validation (`validateOk`; a failure drops the alert after
the suppression update), then persistence.  Returns the suppression state
after the pass. -/
def pipelineStep (env : RoutingPolicyM) (consumers : List String) (ruleId : String)
    (window : Int) (now : Int) (validateOk : Synth → Bool) (st : SuppSt) (c : Synth) :
    SuppSt × StepResult :=
  match normalizeConsumers env (some consumers) with
  | none => (st, .routingRejected)
  | some _ =>
    let (dec, st') := checkAndUpdate st (suppKey ruleId c) window now
    if dec.suppressed then (st', .suppressed)
    else if validateOk c then (st', .persisted)
    else (st', .schemaDropped)

/-- The pipeline folded over the candidate list, keeping each candidate's
outcome. -/
def runPipeline (env : RoutingPolicyM) (consumers : List String) (ruleId : String)
    (window : Int) (now : Int) (validateOk : Synth → Bool) :
    SuppSt → List Synth → SuppSt × List (Synth × StepResult)
  | st, [] => (st, [])
  | st, c :: cs =>
    let (st', res) := pipelineStep env consumers ruleId window now validateOk st c
    let (stF, rest) := runPipeline env consumers ruleId window now validateOk st' cs
    (stF, (c, res) :: rest)

/-- The sweep configuration after `load_json_obj` succeeded, with the typed
values the sweep extracts (`int(...)` coercions already applied).  The
`output.*` fields only feed alert content and are not modelled. -/
structure SweepCfg where
  enabled : Bool
  rule_id : Option String
  threshold_minutes : Int
  pair_with_event_type : Option String
  consumers : List String
  window_minutes : Option Int

/-- Result of one sweep invocation: the process exit code, the
`log_internal_error` codes written to the audit sink (in order), the
persisted alerts (by their synthetic source), and the suppression state
afterwards. -/
structure SweepOut where
  exitCode : Nat
  auditErrors : List String
  alerts : List Synth
  supp : SuppSt

/-- Audit error codes contributed by the per-candidate pipeline. -/
def stepAudit : StepResult → Option String
  | .routingRejected => some "ROUTING_NOT_ALLOWED"
  | .schemaDropped => some "ALERT_SCHEMA_INVALID"
  | _ => none

/-- Embeds `_sweep_timeouts`.  `cfg?` is `none` when `load_json_obj`
raised (missing, unparsable, or non-object config); `fr` is the raw state
file, read directly with `json.loads` (not through `_read_safe`);
`validateOk` stands for the jsonschema validation of the built alert
object (schema artifact external to the core). -/
def sweepTimeouts (cfg? : Option SweepCfg) (fr : FileRead) (env : RoutingPolicyM)
    (validateOk : Synth → Bool) (st0 : SuppSt) (now : Int) : SweepOut :=
  match cfg? with
  | none => ⟨2, ["SWEEP_CONFIG_LOAD_FAILED"], [], st0⟩
  | some cfg =>
    if !cfg.enabled then ⟨0, [], [], st0⟩
    else
      let ruleId := (safeStr cfg.rule_id).getD "R-002-STEP_TIMEOUT"
      let pairType := (safeStr cfg.pair_with_event_type).getD "STEP_COMPLETED"
      let window := cfg.window_minutes.getD cfg.threshold_minutes
      match fr with
      | .missing => ⟨2, ["CORRELATION_STATE_READ_FAILED"], [], st0⟩
      | .blank => ⟨2, ["CORRELATION_STATE_READ_FAILED"], [], st0⟩
      | .notJson => ⟨2, ["CORRELATION_STATE_READ_FAILED"], [], st0⟩
      | .val j =>
        match sweepGroups j with
        | none => ⟨2, [], [], st0⟩
        | some gs =>
          let cands := sweepCandidates pairType cfg.threshold_minutes now gs
          let (stF, results) :=
            runPipeline env cfg.consumers ruleId window now validateOk st0 cands
          ⟨0, results.filterMap (fun r => stepAudit r.2),
            (results.filter (fun r => r.2 = .persisted)).map (fun r => r.1), stF⟩

/-! ## Claim C1: the concrete unresolved-timeout scenario -/

/-- The single record of the C1 scenario (no `event_id` field). -/
def scnRecord : CorrRecord :=
  ⟨none, some "STEP_OPENED", some "2024-01-01T00:00:00Z", some "BT-1"⟩

/-- The C1 correlation state: one group, one record. -/
def scnDoc : Doc := ⟨some "0.1", [("S1|A1|P1|T1|STEP1|SEC1", .list [.record scnRecord])]⟩

/-- The raw `groups` mapping the sweep reads from the C1 state file. -/
def scnGroups : List (String × Json) :=
  match sweepGroups (encodeDoc scnDoc) with
  | some gs => gs
  | none => []

/-- The expected synthetic alert-input of the C1 scenario. -/
def scnSynth : Synth := ⟨"SWEEP-BT-1-1704067200", 1704070800000000, "BT-1", scnRecord⟩

/-- Claim C1: sweeping the state that holds, under group key
"S1|A1|P1|T1|STEP1|SEC1", exactly the STEP_OPENED record at
2024-01-01T00:00:00Z with batch token "BT-1", with threshold 60 minutes
and no completion, at 2024-01-01T02:00:00Z, produces exactly one synthetic
alert-input; its `event_timestamp` is the instant 2024-01-01T01:00:00Z
(the open timestamp plus the threshold), its `event_id` is the
deterministic derivation `SWEEP-BT-1-1704067200` from the batch token and
the epoch seconds of the open timestamp, and every repeated sweep at any
time from 2024-01-01T01:00:00Z on produces the same single alert-input
with the same event id. -/
theorem claim_C1_concrete_timeout_scenario :
    sweepCandidates "STEP_COMPLETED" 60 1704074400000000 scnGroups = [scnSynth] ∧
    parseIso "2024-01-01T02:00:00Z" = some 1704074400000000 ∧
    parseIso "2024-01-01T01:00:00Z" = some scnSynth.event_ts ∧
    parseIso "2024-01-01T00:00:00Z" = some 1704067200000000 ∧
    scnSynth.event_id = "SWEEP-" ++ "BT-1" ++ "-" ++ toString (usToEpochSec 1704067200000000) ∧
    (∀ now' : Int, 1704070800000000 ≤ now' →
      sweepCandidates "STEP_COMPLETED" 60 now' scnGroups = [scnSynth]) := by
  refine ⟨by decide, by decide, by decide, by decide, by decide, ?_⟩
  intro now' h
  have key : openCandidate 60 now'
      (completionsFor "STEP_COMPLETED" now' [Entry.record scnRecord])
      (.record scnRecord) = some scnSynth := by
    rw [show openCandidate 60 now'
        (completionsFor "STEP_COMPLETED" now' [Entry.record scnRecord])
        (.record scnRecord) =
        if now' < 1704070800000000 then none else some scnSynth from rfl,
      if_neg (by omega)]
  show sweepCandidates "STEP_COMPLETED" 60 now' scnGroups = [scnSynth]
  unfold sweepCandidates
  simp only [scnGroups, List.filterMap, List.flatten]
  rw [show List.map decodeEntry (List.map encodeEntry [Entry.record scnRecord]) =
      [Entry.record scnRecord] from by decide]
  unfold candidatesGroup
  rw [List.filterMap_cons, key]
  simp

/-- Witness for C1: the repeated-sweep clause instantiated at the concrete
sweep time 2024-01-01T02:00:00Z. -/
theorem claim_C1_concrete_timeout_scenario_witness :
    sweepCandidates "STEP_COMPLETED" 60 1704074400000000 scnGroups = [scnSynth] :=
  claim_C1_concrete_timeout_scenario.2.2.2.2.2 1704074400000000 (by decide)

/-! ## Claim C2: a completion inside the window resolves the open -/

/-- A completion contributed by a member of the group list lands in the
completion index under its batch token. -/
theorem mem_completionsFor {pt : String} {now : Int} {es : List Entry} {e : Entry}
    {bt : String} {t : Int} (hmem : e ∈ es) (h : completionOf pt now e = some (bt, t)) :
    t ∈ completionsFor pt now es bt := by
  unfold completionsFor
  refine List.mem_filterMap.mpr ⟨(bt, t), List.mem_filterMap.mpr ⟨e, hmem, h⟩, by simp⟩

/-- Claim C2: for every group and every STEP_OPENED record at time `T`
carrying batch token `B`, if the group also contains a record of the
configured pair event type for `B` at `T + d` with `0 ≤ d ≤ threshold`,
then a sweep invoked at any time at or after `T + threshold` produces no
alert candidate for that open (it is resolved and skipped). -/
theorem claim_C2_completion_resolves_open
    (pairType : String) (θ now T d : Int) (es : List Entry)
    (r rc : CorrRecord) (B s sc : String)
    (hmem : Entry.record rc ∈ es)
    (hty : safeStr r.event_type = some "STEP_OPENED")
    (hbt : safeStr r.batch_token = some B)
    (hs : safeStr r.event_timestamp = some s)
    (hp : parseIso s = some T)
    (hty2 : safeStr rc.event_type = some pairType)
    (hbt2 : safeStr rc.batch_token = some B)
    (hs2 : safeStr rc.event_timestamp = some sc)
    (hp2 : parseIso sc = some (T + d))
    (hd0 : 0 ≤ d) (hdw : d ≤ θ * 60000000)
    (hnow : T + θ * 60000000 ≤ now) :
    openCandidate θ now (completionsFor pairType now es) (.record r) = none := by
  have hcomp : completionOf pairType now (.record rc) = some (B, T + d) := by
    simp only [completionOf, resolveTs, hty2, hbt2, hs2, hp2]
    simp
  have hmemT : (T + d) ∈ completionsFor pairType now es B :=
    mem_completionsFor hmem hcomp
  simp only [openCandidate, resolveTs, hty, hbt, hs, hp]
  simp only [ne_eq, not_true_eq_false, if_false]
  rw [if_neg (by omega)]
  rw [if_pos]
  apply List.any_eq_true.mpr
  exact ⟨T + d, hmemT, by simp; omega⟩

/-- The open record of the C2 witness scenario. -/
def c2open : CorrRecord :=
  ⟨some "E1", some "STEP_OPENED", some "2024-01-01T00:00:00Z", some "BT-1"⟩

/-- The completion record of the C2 witness scenario, 30 minutes after the
open. -/
def c2comp : CorrRecord :=
  ⟨some "E2", some "STEP_COMPLETED", some "2024-01-01T00:30:00Z", some "BT-1"⟩

/-- The C2 witness group. -/
def c2es : List Entry := [.record c2open, .record c2comp]

/-- Witness for C2: with a completion 30 minutes into a 60-minute window, a
sweep at exactly `T + threshold` produces no candidate for the open. -/
theorem claim_C2_completion_resolves_open_witness :
    openCandidate 60 1704070800000000
      (completionsFor "STEP_COMPLETED" 1704070800000000 c2es) (.record c2open) = none :=
  claim_C2_completion_resolves_open "STEP_COMPLETED" 60 1704070800000000
    1704067200000000 1800000000 c2es c2open c2comp "BT-1"
    "2024-01-01T00:00:00Z" "2024-01-01T00:30:00Z"
    (by decide) (by decide) (by decide) (by decide) (by decide)
    (by decide) (by decide) (by decide) (by decide) (by decide)
    (by decide) (by decide)

/-! ## Claim C3: prune age bounds -/

/-- Claim C3: after `prune(max_age_minutes = M)` invoked at `now`, every
group still present holds a non-empty list, and every element of it is a
record whose timestamp parses to an instant no older than
`now - M` minutes; in particular every record with a strictly older
parsable timestamp, every record with an unparsable timestamp (never
treated as "now"), every non-record element and every emptied group is
gone. -/
theorem claim_C3_prune_age_bound (d : Doc) (M now : Int) (gk : String) (gv : GroupVal)
    (hmem : (gk, gv) ∈ (pruneDoc d M now).groups) :
    ∃ es, gv = GroupVal.list es ∧ es ≠ [] ∧
      ∀ e ∈ es, ∃ r, e = Entry.record r ∧
        ∃ t, parseIso (pyTrim (orEmpty r.event_timestamp)) = some t ∧
          now - M * 60000000 ≤ t := by
  unfold pruneDoc at hmem
  simp only [List.mem_filterMap] at hmem
  obtain ⟨kv, hkv, heq⟩ := hmem
  unfold pruneGroupStep at heq
  cases hgv : kv.2 with
  | notList => rw [hgv] at heq; simp at heq
  | list es0 =>
    rw [hgv] at heq
    simp only at heq
    by_cases hk : (es0.filter (pruneKeep (now - M * 60000000))).isEmpty
    · rw [if_pos hk] at heq; simp at heq
    · rw [if_neg hk] at heq
      obtain ⟨hgk, hgveq⟩ := Prod.mk.injEq .. ▸ Option.some.injEq .. ▸ heq
      refine ⟨es0.filter (pruneKeep (now - M * 60000000)), hgveq.symm, ?_, ?_⟩
      · intro hnil
        rw [hnil] at hk
        simp at hk
      · intro e he
        have hkeep := (List.mem_filter.mp he).2
        cases e with
        | notDict => simp [pruneKeep] at hkeep
        | record r =>
          refine ⟨r, rfl, ?_⟩
          simp only [pruneKeep] at hkeep
          cases hp : parseIso (pyTrim (orEmpty r.event_timestamp)) with
          | none => rw [hp] at hkeep; simp at hkeep
          | some t =>
            rw [hp] at hkeep
            exact ⟨t, rfl, by simpa using hkeep⟩

/-- Witness for C3: pruning the C1 scenario document with a 240-minute age
window at 2024-01-01T02:00:00Z keeps the group, and the theorem yields the
age bound for its single record. -/
theorem claim_C3_prune_age_bound_witness :
    ∃ es, GroupVal.list [Entry.record scnRecord] = GroupVal.list es ∧ es ≠ [] ∧
      ∀ e ∈ es, ∃ r, e = Entry.record r ∧
        ∃ t, parseIso (pyTrim (orEmpty r.event_timestamp)) = some t ∧
          1704074400000000 - 240 * 60000000 ≤ t :=
  claim_C3_prune_age_bound scnDoc 240 1704074400000000 "S1|A1|P1|T1|STEP1|SEC1"
    (GroupVal.list [Entry.record scnRecord]) (by decide)

/-! ## Claim C4: corrupt or missing state file recovery -/

/-- Claim C4: on every corrupted or missing state file (missing, empty,
not JSON, root not an object, `groups` missing or mistyped), the safe read
used by every store operation returns the fresh empty document and
replaces the file with it — never a partial repair — and `add_event`,
`prune` and `get_group_events` all proceed exactly as on the fresh empty
document, without any exception path. -/
theorem claim_C4_corruption_resets_state (fr : FileRead) (h : corruptFile fr = true) :
    readSafe fr = (emptyDoc, writeAtomic emptyDoc) ∧
    (∀ k, getGroupEvents fr k = (GroupVal.list [], writeAtomic emptyDoc)) ∧
    (∀ M now, prune fr M now = writeAtomic emptyDoc) ∧
    (∀ gk eid ety ets bt nowIso, addEvent fr gk eid ety ets bt nowIso =
      addEvent (writeAtomic emptyDoc) gk eid ety ets bt nowIso) := by
  have hrs : readSafe fr = (emptyDoc, writeAtomic emptyDoc) := by
    cases fr with
    | missing => rfl
    | blank => rfl
    | notJson => rfl
    | val j =>
      have hd : decodeDoc j = none := by
        simp only [corruptFile, Option.isNone_iff_eq_none] at h
        exact h
      simp only [readSafe, hd]
  refine ⟨hrs, ?_, ?_, ?_⟩
  · intro k
    unfold getGroupEvents
    rw [hrs]
    rfl
  · intro M now
    unfold prune
    rw [hrs]
    rfl
  · intro gk eid ety ets bt nowIso
    unfold addEvent
    rw [hrs, show readSafe (writeAtomic emptyDoc) = (emptyDoc, writeAtomic emptyDoc) from rfl]

/-- Witness for C4: an empty (zero-byte) state file is recovered by the
safe read, and a prune over it just writes the fresh empty document. -/
theorem claim_C4_corruption_resets_state_witness :
    readSafe .blank = (emptyDoc, writeAtomic emptyDoc) ∧
    prune .blank 1440 1704074400000000 = writeAtomic emptyDoc :=
  ⟨(claim_C4_corruption_resets_state .blank (by decide)).1,
    (claim_C4_corruption_resets_state .blank (by decide)).2.2.1 1440 1704074400000000⟩

/-! ## Claim C5: blank group key -/

/-- Counterexample to C5 as stated: calling `add_event` with a blank group
key on a corrupt (empty) state file does write — `_read_safe(recover=True)`
runs before the blank-key check and replaces the file with the fresh empty
document — so "no write occurs" does not hold for every call. -/
theorem claim_C5_blank_key_counterexample :
    addEvent .blank "" "E" "STEP_OPENED" "2024-01-01T00:00:00Z" none
        "2024-01-01T00:00:00+00:00" = writeAtomic emptyDoc ∧
      writeAtomic emptyDoc ≠ FileRead.blank :=
  ⟨rfl, fun h => FileRead.noConfusion h⟩

/-- Amended C5: a call to `add_event` whose group key is blank after
trimming appends nothing and leaves the file exactly as the safe read
leaves it; in particular on a valid state document the file is untouched
(byte-for-byte no write), and on a corrupt one the only change is the
standard fresh-empty-document recovery. -/
theorem claim_C5_blank_key_noop (fr : FileRead) (gk eid ety ets : String)
    (bt : Option String) (nowIso : String) (h : pyTrim gk = "") :
    addEvent fr gk eid ety ets bt nowIso = (readSafe fr).2 ∧
    (∀ j d, fr = .val j → decodeDoc j = some d →
      addEvent fr gk eid ety ets bt nowIso = fr) := by
  have hbase : addEvent fr gk eid ety ets bt nowIso = (readSafe fr).2 := by
    unfold addEvent
    rw [h]
    simp
  refine ⟨hbase, ?_⟩
  intro j d hj hd
  rw [hbase, hj]
  simp only [readSafe, hd]

/-- Witness for the amended C5: a whitespace-only group key on the
canonical empty-document file is a strict no-op. -/
theorem claim_C5_blank_key_noop_witness :
    addEvent (writeAtomic emptyDoc) "  " "E" "STEP_OPENED"
      "2024-01-01T00:00:00Z" none "2024-01-01T00:00:00+00:00" = writeAtomic emptyDoc :=
  (claim_C5_blank_key_noop (writeAtomic emptyDoc) "  " "E" "STEP_OPENED"
    "2024-01-01T00:00:00Z" none "2024-01-01T00:00:00+00:00" (by decide)).2
    (encodeDoc emptyDoc) ⟨some "0.1", []⟩ rfl rfl

/-! ## Claim C8: write-then-read round trip -/

/-- Stable keyed insertion does not change first-match lookup. -/
theorem assocGet_sortInsert {β : Type} (x : String × β) (ys : List (String × β))
    (k : String) : assocGet (sortInsert x ys) k = assocGet (x :: ys) k := by
  induction ys with
  | nil => rfl
  | cons y ys ih =>
    unfold sortInsert
    by_cases hlt : y.1 < x.1
    · rw [if_pos hlt]
      show (if y.1 = k then some y.2 else assocGet (sortInsert x ys) k) = _
      by_cases hyk : y.1 = k
      · have hxk : x.1 ≠ k := fun hxe => absurd (hyk ▸ hxe ▸ hlt) (lt_irrefl _)
        show _ = if x.1 = k then some x.2 else assocGet (y :: ys) k
        rw [if_pos hyk, if_neg hxk]
        show _ = if y.1 = k then some y.2 else assocGet ys k
        rw [if_pos hyk]
      · rw [if_neg hyk, ih]
        show (if x.1 = k then some x.2 else assocGet ys k) =
          if x.1 = k then some x.2 else assocGet (y :: ys) k
        by_cases hxk : x.1 = k
        · rw [if_pos hxk, if_pos hxk]
        · rw [if_neg hxk, if_neg hxk]
          show _ = if y.1 = k then some y.2 else assocGet ys k
          rw [if_neg hyk]
    · rw [if_neg hlt]

/-- The key sort applied by `json.dumps(sort_keys=True)` does not change
first-match lookup. -/
theorem assocGet_sortByKey {β : Type} (l : List (String × β)) (k : String) :
    assocGet (sortByKey l) k = assocGet l k := by
  induction l with
  | nil => rfl
  | cons x xs ih =>
    show assocGet (sortInsert x (sortByKey xs)) k = _
    rw [assocGet_sortInsert]
    show (if x.1 = k then some x.2 else assocGet (sortByKey xs) k) = _
    rw [ih]
    rfl

/-- Decoding inverts encoding on a group element. -/
theorem decodeEntry_encodeEntry (e : Entry) : decodeEntry (encodeEntry e) = e := by
  cases e with
  | notDict => rfl
  | record r =>
    rcases r with ⟨id, ty, ts, bt⟩
    cases id <;> cases ty <;> cases ts <;> cases bt <;> rfl

/-- Decoding inverts encoding on a group value. -/
theorem decodeGroupVal_encodeGroupVal (gv : GroupVal) :
    decodeGroupVal (encodeGroupVal gv) = gv := by
  cases gv with
  | notList => rfl
  | list es =>
    show GroupVal.list ((es.map encodeEntry).map decodeEntry) = GroupVal.list es
    rw [List.map_map]
    congr 1
    induction es with
    | nil => rfl
    | cons e es ih => simp [ih, decodeEntry_encodeEntry]

/-- Decoding inverts encoding on the groups mapping (up to the key sort
performed by the serializer). -/
theorem decode_encode_groups (gs : List (String × GroupVal)) :
    gs.map ((fun kv => (kv.1, decodeGroupVal kv.2)) ∘
      (fun kv => (kv.1, encodeGroupVal kv.2))) = gs := by
  induction gs with
  | nil => rfl
  | cons x xs ih => simp [ih, decodeGroupVal_encodeGroupVal, Function.comp]

/-- The full decode of a canonically written document. -/
theorem decodeDoc_encodeDoc (d : Doc) :
    decodeDoc (encodeDoc d) = some ⟨d.version, sortByKey d.groups⟩ := by
  rcases d with ⟨v, gs⟩
  cases v with
  | none => simp [encodeDoc, decodeDoc, jGet, assocGet, decode_encode_groups]
  | some s => simp [encodeDoc, decodeDoc, jGet, assocGet, decode_encode_groups, decodeVersionVal]

/-- Claim C8: writing a state document through the store's atomic write and
reading it back through the store's safe read yields the same groups with
the same records in the same order (the round trip is the identity on the
groups mapping), and the read performs no recovery write. -/
theorem claim_C8_write_read_roundtrip (d : Doc) (k : String) :
    assocGet ((readSafe (writeAtomic d)).1).groups k = assocGet d.groups k ∧
    (readSafe (writeAtomic d)).2 = writeAtomic d := by
  have h : readSafe (writeAtomic d) =
      (⟨some (d.version.getD "0.1"), sortByKey d.groups⟩, writeAtomic d) := by
    show readSafe (.val (encodeDoc d)) = _
    simp only [readSafe, decodeDoc_encodeDoc]
    rfl
  rw [h]
  exact ⟨assocGet_sortByKey d.groups k, rfl⟩

/-! ## Claim C9: empty consumer list passes routing -/

/-- Claim C9: `RoutingPolicy.normalize` maps both `None` and an empty
consumer list to an empty decision for every policy, without consulting the
allow-list; consequently, in a sweep configured with no routing consumers
the per-candidate pipeline never takes the routing-rejected branch. -/
theorem claim_C9_empty_consumers_pass_routing :
    (∀ p : RoutingPolicyM, normalizeConsumers p none = some [] ∧
      normalizeConsumers p (some []) = some []) ∧
    (∀ (env : RoutingPolicyM) (ruleId : String) (w now : Int) (v : Synth → Bool)
      (st : SuppSt) (c : Synth),
      (pipelineStep env [] ruleId w now v st c).2 = .suppressed ∨
      (pipelineStep env [] ruleId w now v st c).2 = .persisted ∨
      (pipelineStep env [] ruleId w now v st c).2 = .schemaDropped) := by
  constructor
  · intro p
    exact ⟨rfl, rfl⟩
  · intro env ruleId w now v st c
    unfold pipelineStep
    rw [show normalizeConsumers env (some ([] : List String)) = some [] from rfl]
    rcases hd : checkAndUpdate st (suppKey ruleId c) w now with ⟨dec, st'⟩
    by_cases hs : dec.suppressed
    · left
      simp [hd, hs]
    · by_cases hv : v c
      · right; left
        simp [hd, hs, hv]
      · right; right
        simp [hd, hs, hv]

/-! ## Claim C10: suppression check-and-update atomicity -/

/-- Setting a key makes it immediately visible. -/
theorem assocGet_assocSet_same {β : Type} (l : List (String × β)) (k : String) (v : β) :
    assocGet (assocSet l k v) k = some v := by
  induction l with
  | nil => simp [assocSet, assocGet]
  | cons x xs ih =>
    unfold assocSet
    by_cases hx : x.1 = k
    · rw [if_pos hx]
      simp [assocGet]
    · rw [if_neg hx]
      show (if x.1 = k then some x.2 else assocGet (assocSet xs k v) k) = some v
      rw [if_neg hx, ih]

/-- Setting a key leaves every other key untouched. -/
theorem assocGet_assocSet_other {β : Type} (l : List (String × β)) (k k' : String)
    (v : β) (h : k' ≠ k) : assocGet (assocSet l k v) k' = assocGet l k' := by
  induction l with
  | nil =>
    show (if k = k' then some v else none) = none
    rw [if_neg (fun he => h he.symm)]
  | cons x xs ih =>
    unfold assocSet
    by_cases hx : x.1 = k
    · rw [if_pos hx]
      show (if k = k' then some v else assocGet xs k') = _
      rw [if_neg (fun he => h he.symm)]
      show _ = if x.1 = k' then some x.2 else assocGet xs k'
      have hx' : ¬ x.1 = k' := by
        rw [hx]
        exact fun he => h he.symm
      rw [if_neg hx']
    · rw [if_neg hx]
      show (if x.1 = k' then some x.2 else assocGet (assocSet xs k v) k') = _
      rw [ih]
      rfl

/-- Claim C10: `check_and_update` is atomic with respect to its decision —
a suppressed result leaves the persisted state untouched, a non-suppressed
result performs exactly one update (the given key is set to the current
time and every other key is unchanged), and an unparsable stored timestamp
is treated as not suppressed and overwritten. -/
theorem claim_C10_check_and_update_atomic (st : SuppSt) (key : String)
    (window now : Int) :
    ((checkAndUpdate st key window now).1.suppressed = true →
      (checkAndUpdate st key window now).2 = st) ∧
    ((checkAndUpdate st key window now).1.suppressed = false →
      (checkAndUpdate st key window now).2 = assocSet st key (.parsed now) ∧
      assocGet (checkAndUpdate st key window now).2 key = some (.parsed now) ∧
      ∀ k, k ≠ key → assocGet (checkAndUpdate st key window now).2 k = assocGet st k) ∧
    (assocGet st key = some .unparsable →
      (checkAndUpdate st key window now).1.suppressed = false ∧
      (checkAndUpdate st key window now).2 = assocSet st key (.parsed now)) := by
  unfold checkAndUpdate
  rcases hget : assocGet st key with _ | v
  · simp only [hget]
    refine ⟨?_, ?_, ?_⟩
    · intro h
      simp at h
    · intro _
      exact ⟨by trivial, assocGet_assocSet_same .., fun k hk => assocGet_assocSet_other _ _ _ _ hk⟩
    · intro h
      simp at h
  · cases v with
    | parsed t =>
      simp only [hget]
      by_cases hw : now - t < window * 60000000
      · rw [if_pos hw]
        refine ⟨fun _ => rfl, ?_, ?_⟩
        · intro h
          simp at h
        · intro h
          simp at h
      · rw [if_neg hw]
        refine ⟨?_, ?_, ?_⟩
        · intro h
          simp at h
        · intro _
          exact ⟨by trivial, assocGet_assocSet_same .., fun k hk => assocGet_assocSet_other _ _ _ _ hk⟩
        · intro h
          simp at h
    | unparsable =>
      simp only [hget]
      refine ⟨?_, ?_, ?_⟩
      · intro h
        simp at h
      · intro _
        exact ⟨by trivial, assocGet_assocSet_same .., fun k hk => assocGet_assocSet_other _ _ _ _ hk⟩
      · intro _
        exact ⟨by trivial, by trivial⟩

/-- Witness for C10: a key stored 30 minutes ago with a 60-minute window is
suppressed and the state is untouched; an unparsable stored value is
overwritten with the current time. -/
theorem claim_C10_check_and_update_atomic_witness :
    (checkAndUpdate [("K", .parsed 0)] "K" 60 1800000000).2 = [("K", .parsed 0)] ∧
    (checkAndUpdate [("K", .unparsable)] "K" 60 1800000000).1.suppressed = false ∧
    (checkAndUpdate [("K", .unparsable)] "K" 60 1800000000).2 =
      assocSet [("K", .unparsable)] "K" (.parsed 1800000000) :=
  ⟨(claim_C10_check_and_update_atomic [("K", .parsed 0)] "K" 60 1800000000).1 (by decide),
    (claim_C10_check_and_update_atomic [("K", .unparsable)] "K" 60 1800000000).2.2 (by decide)⟩

/-! ## Claim C6: fatal setup errors versus isolated per-record errors -/

/-- A record whose timestamp string does not parse contributes nothing to
the completion index. -/
theorem completionOf_badTs (pt : String) (now : Int) (r : CorrRecord) (s : String)
    (hs : safeStr r.event_timestamp = some s) (hp : parseIso s = none) :
    completionOf pt now (.record r) = none := by
  simp only [completionOf, resolveTs, hs, hp]
  split
  · rfl
  · cases safeStr r.batch_token <;> rfl

/-- A record whose timestamp string does not parse yields no alert
candidate. -/
theorem openCandidate_badTs (θ now : Int) (comps : String → List Int)
    (r : CorrRecord) (s : String)
    (hs : safeStr r.event_timestamp = some s) (hp : parseIso s = none) :
    openCandidate θ now comps (.record r) = none := by
  simp only [openCandidate, resolveTs, hs, hp]
  split
  · rfl
  · cases safeStr r.batch_token <;> rfl

/-- Removing a bad-timestamp record from a group changes nothing about the
candidates computed from that group: the error affects only that record. -/
theorem candidatesGroup_badTs (pt : String) (θ now : Int) (es1 es2 : List Entry)
    (r : CorrRecord) (s : String)
    (hs : safeStr r.event_timestamp = some s) (hp : parseIso s = none) :
    candidatesGroup pt θ now (es1 ++ .record r :: es2) =
      candidatesGroup pt θ now (es1 ++ es2) := by
  have hfun : completionsFor pt now (es1 ++ .record r :: es2) =
      completionsFor pt now (es1 ++ es2) := by
    funext bt
    unfold completionsFor
    simp only [List.filterMap_append, List.filterMap_cons,
      completionOf_badTs pt now r s hs hp]
  unfold candidatesGroup
  rw [hfun, List.filterMap_append, List.filterMap_append, List.filterMap_cons,
    openCandidate_badTs θ now _ r s hs hp]

/-- A timestamp string that `datetime.fromisoformat` rejects outright: the
trimmed string is non-empty and starts with a non-digit character (every
form fromisoformat accepts begins with the first digit of the year), and it
is unparsable in the model too.  Offset-naive or shortened ISO strings are
deliberately outside this predicate: Python parses those, and an
offset-naive timestamp reaching the sweep raises an uncaught aware/naive
comparison error that aborts the whole invocation, so no per-record
isolation may be claimed for them. -/
def definitelyInvalidTs (s : String) : Bool :=
  (parseIso s).isNone &&
    (match trimChars s.toList with
     | [] => false
     | c :: _ => !c.isDigit)

/-- Counterexample to C6 as stated: a malformed correlation state file
whose root parses but is not an object (here a JSON array), or whose root
object lacks the `groups` key — both corrupt by the store's own
classification, the spec's document invariant and C4's enumeration — does
NOT abort the sweep: `groups` defaults to the empty mapping, the sweep
completes with exit code 0, no audit failure signal is written and nothing
is emitted.  So "unreadable/malformed state aborts the entire sweep with a
distinct failure signal" is false of the code for these malformed shapes. -/
theorem claim_C6_malformed_state_not_fatal :
    corruptFile (.val (Json.arr [])) = true ∧
    corruptFile (.val (Json.obj [])) = true ∧
    sweepTimeouts (some ⟨true, none, 60, none, [], none⟩) (.val (Json.arr []))
        ⟨["QA_REVIEW"], []⟩ (fun _ => true) [] 1704074400000000 =
      ⟨0, [], [], []⟩ ∧
    sweepTimeouts (some ⟨true, none, 60, none, [], none⟩) (.val (Json.obj []))
        ⟨["QA_REVIEW"], []⟩ (fun _ => true) [] 1704074400000000 =
      ⟨0, [], [], []⟩ :=
  ⟨rfl, rfl, rfl, rfl⟩

/-- On a parsable state value the store cannot decode, the sweep either
sees a non-object `groups` value (fatal) or falls back to an empty groups
mapping. -/
theorem sweepGroups_of_corrupt (j : Json) (hdec : decodeDoc j = none) :
    sweepGroups j = none ∨ sweepGroups j = some [] := by
  cases j with
  | obj fs =>
    simp only [decodeDoc] at hdec
    simp only [sweepGroups]
    cases hjg : jGet fs "groups" with
    | none => right; rfl
    | some gv =>
      rw [hjg] at hdec
      cases gv with
      | obj gfs => exact Option.noConfusion hdec
      | null => left; rfl
      | bool b => left; rfl
      | num n => left; rfl
      | str str => left; rfl
      | arr l => left; rfl
  | null => right; rfl
  | bool b => right; rfl
  | num n => right; rfl
  | str str => right; rfl
  | arr l => right; rfl

/-- Amended claim C6: a missing/unparsable sweep configuration aborts the
whole sweep with exit code 2 and the audit code SWEEP_CONFIG_LOAD_FAILED;
a correlation state file that cannot be read or parsed as JSON aborts it
with exit code 2 and the distinct audit code CORRELATION_STATE_READ_FAILED;
a `groups` value that is present but not an object aborts it with exit
code 2; in every fatal case nothing is emitted and the suppression state is
untouched.  A malformed state that still parses (non-object root, or
missing `groups` key) is NOT fatal: the sweep either aborts as above or
completes normally over an empty state with exit code 0, emitting nothing.
Per-record errors are isolated: a record whose timestamp string
fromisoformat rejects outright (`definitelyInvalidTs`; offset-naive
timestamps are outside this guarantee) contributes nothing and the sweep
over the group is identical to the sweep without it; a routing rejection
skips only that candidate and leaves the suppression state unchanged; a
schema validation failure drops only that candidate (never persisting it)
while the remaining candidates are still processed. -/
theorem claim_C6_error_policy_amended :
    (∀ fr env v st0 now, sweepTimeouts none fr env v st0 now =
      ⟨2, ["SWEEP_CONFIG_LOAD_FAILED"], [], st0⟩) ∧
    (∀ cfg env v st0 now, cfg.enabled = true →
      sweepTimeouts (some cfg) .missing env v st0 now =
        ⟨2, ["CORRELATION_STATE_READ_FAILED"], [], st0⟩ ∧
      sweepTimeouts (some cfg) .blank env v st0 now =
        ⟨2, ["CORRELATION_STATE_READ_FAILED"], [], st0⟩ ∧
      sweepTimeouts (some cfg) .notJson env v st0 now =
        ⟨2, ["CORRELATION_STATE_READ_FAILED"], [], st0⟩) ∧
    (∀ cfg j env v st0 now, cfg.enabled = true → sweepGroups j = none →
      sweepTimeouts (some cfg) (.val j) env v st0 now = ⟨2, [], [], st0⟩) ∧
    ("SWEEP_CONFIG_LOAD_FAILED" : String) ≠ "CORRELATION_STATE_READ_FAILED" ∧
    (∀ cfg j env v st0 now, cfg.enabled = true → decodeDoc j = none →
      sweepTimeouts (some cfg) (.val j) env v st0 now = ⟨2, [], [], st0⟩ ∨
      sweepTimeouts (some cfg) (.val j) env v st0 now = ⟨0, [], [], st0⟩) ∧
    (∀ pt θ now es1 es2 r s, safeStr r.event_timestamp = some s →
      definitelyInvalidTs s = true →
      candidatesGroup pt θ now (es1 ++ .record r :: es2) =
        candidatesGroup pt θ now (es1 ++ es2)) ∧
    (∀ env cons ruleId w now v st c, normalizeConsumers env (some cons) = none →
      pipelineStep env cons ruleId w now v st c = (st, .routingRejected)) ∧
    (∀ env cons ruleId w now v st c cs, v c = false →
      (pipelineStep env cons ruleId w now v st c).2 ≠ .persisted ∧
      runPipeline env cons ruleId w now v st (c :: cs) =
        ((runPipeline env cons ruleId w now v
            (pipelineStep env cons ruleId w now v st c).1 cs).1,
          (c, (pipelineStep env cons ruleId w now v st c).2) ::
            (runPipeline env cons ruleId w now v
              (pipelineStep env cons ruleId w now v st c).1 cs).2)) := by
  refine ⟨fun fr env v st0 now => rfl, ?_, ?_, by decide, ?_, ?_, ?_, ?_⟩
  · intro cfg env v st0 now hen
    refine ⟨?_, ?_, ?_⟩ <;> simp [sweepTimeouts, hen]
  · intro cfg j env v st0 now hen hg
    simp [sweepTimeouts, hen, hg]
  · intro cfg j env v st0 now hen hdec
    rcases sweepGroups_of_corrupt j hdec with hgs | hgs
    · left
      simp [sweepTimeouts, hen, hgs]
    · right
      simp [sweepTimeouts, hen, hgs, sweepCandidates, runPipeline]
  · intro pt θ now es1 es2 r s hs hinv
    have hp : parseIso s = none := by
      unfold definitelyInvalidTs at hinv
      exact Option.isNone_iff_eq_none.mp (Bool.and_eq_true .. |>.mp hinv).1
    exact candidatesGroup_badTs pt θ now es1 es2 r s hs hp
  · intro env cons ruleId w now v st c hn
    unfold pipelineStep
    rw [hn]
  · intro env cons ruleId w now v st c cs hv
    constructor
    · unfold pipelineStep
      cases hn : normalizeConsumers env (some cons) with
      | none => simp
      | some dec =>
        rcases hd : checkAndUpdate st (suppKey ruleId c) w now with ⟨d, st'⟩
        by_cases hsup : d.suppressed <;> simp [hd, hsup, hv]
    · rfl

/-- Witness for the amended C6: an unreadable (empty) state file aborts
with the state-error signal; a malformed-but-parsable state (JSON array
root) lands in the abort-or-complete-empty disjunction; and removing a
definitely-invalid-timestamp record from the C1 group changes nothing. -/
theorem claim_C6_error_policy_amended_witness :
    sweepTimeouts (some ⟨true, none, 60, none, [], none⟩) .blank ⟨[], []⟩
        (fun _ => true) [] 0 = ⟨2, ["CORRELATION_STATE_READ_FAILED"], [], []⟩ ∧
    (sweepTimeouts (some ⟨true, none, 60, none, [], none⟩) (.val (Json.arr []))
        ⟨[], []⟩ (fun _ => true) [] 0 = ⟨2, [], [], []⟩ ∨
      sweepTimeouts (some ⟨true, none, 60, none, [], none⟩) (.val (Json.arr []))
        ⟨[], []⟩ (fun _ => true) [] 0 = ⟨0, [], [], []⟩) ∧
    candidatesGroup "STEP_COMPLETED" 60 1704074400000000
        ([] ++ .record ⟨some "E9", some "STEP_OPENED", some "not-a-time", some "BT-9"⟩ ::
          [.record scnRecord]) =
      candidatesGroup "STEP_COMPLETED" 60 1704074400000000 ([] ++ [.record scnRecord]) :=
  ⟨(claim_C6_error_policy_amended.2.1 ⟨true, none, 60, none, [], none⟩ ⟨[], []⟩
      (fun _ => true) [] 0 (by decide)).2.1,
    claim_C6_error_policy_amended.2.2.2.2.1 ⟨true, none, 60, none, [], none⟩
      (Json.arr []) ⟨[], []⟩ (fun _ => true) [] 0 (by decide) rfl,
    claim_C6_error_policy_amended.2.2.2.2.2.1 "STEP_COMPLETED" 60 1704074400000000
      [] [.record scnRecord] ⟨some "E9", some "STEP_OPENED", some "not-a-time", some "BT-9"⟩
      "not-a-time" (by decide) (by decide)⟩

/-! ## Claim C7: at-most-once persistence across two sweeps -/

/-- Number of candidates with the given suppression key in an alert list. -/
def countKey (ruleId K : String) (l : List Synth) : Nat :=
  l.countP (fun c => suppKey ruleId c == K)

/-- Number of persisted pipeline results with the given suppression key. -/
def persistedCountK (ruleId K : String) (rs : List (Synth × StepResult)) : Nat :=
  rs.countP (fun r => suppKey ruleId r.1 == K && r.2 == StepResult.persisted)

/-- Unfolding of the count over a result cons cell. -/
theorem persistedCountK_cons (ruleId K : String) (c : Synth) (res : StepResult)
    (rs : List (Synth × StepResult)) :
    persistedCountK ruleId K ((c, res) :: rs) =
      persistedCountK ruleId K rs +
        (if suppKey ruleId c = K ∧ res = .persisted then 1 else 0) := by
  unfold persistedCountK
  rw [List.countP_cons]
  by_cases h1 : suppKey ruleId c = K
  · by_cases h2 : res = StepResult.persisted
    · simp [h1, h2]
    · simp [h1, h2]
  · simp [h1]

/-- The alerts a sweep persists are exactly the persisted pipeline results,
key count included. -/
theorem countKey_filter_persisted (ruleId K : String) (rs : List (Synth × StepResult)) :
    countKey ruleId K ((rs.filter (fun r => r.2 = StepResult.persisted)).map
      (fun r => r.1)) = persistedCountK ruleId K rs := by
  induction rs with
  | nil => rfl
  | cons r rs ih =>
    rcases r with ⟨c, res⟩
    rw [persistedCountK_cons]
    by_cases h2 : res = StepResult.persisted
    · subst h2
      rw [List.filter_cons_of_pos (by simp), List.map_cons]
      unfold countKey
      rw [List.countP_cons]
      by_cases h1 : suppKey ruleId c = K
      · simp only [h1, and_true, if_true]
        unfold countKey at ih
        simp [ih]
      · simp only [h1, false_and, if_false]
        unfold countKey at ih
        simp [ih, h1]
    · rw [List.filter_cons_of_neg (by simp [h2])]
      simp [ih, h2]

/-- Exhaustive description of one pipeline pass: a routing rejection leaves
the state alone; a suppression hit (some recent parsable stored time inside
the window) leaves the state alone; otherwise the candidate's key is
stamped with the current time, and the result is persisted or dropped by
validation. -/
theorem pipelineStep_cases (env : RoutingPolicyM) (cons : List String) (ruleId : String)
    (w now : Int) (v : Synth → Bool) (st : SuppSt) (c : Synth) :
    pipelineStep env cons ruleId w now v st c = (st, .routingRejected) ∨
    (pipelineStep env cons ruleId w now v st c = (st, .suppressed) ∧
      ∃ t, assocGet st (suppKey ruleId c) = some (.parsed t) ∧ now - t < w * 60000000) ∨
    (∃ res, pipelineStep env cons ruleId w now v st c =
        (assocSet st (suppKey ruleId c) (.parsed now), res) ∧
      (res = StepResult.persisted ∨ res = StepResult.schemaDropped) ∧
      ¬ ∃ t, assocGet st (suppKey ruleId c) = some (.parsed t) ∧ now - t < w * 60000000) := by
  unfold pipelineStep
  cases hn : normalizeConsumers env (some cons) with
  | none => exact Or.inl rfl
  | some dec =>
    unfold checkAndUpdate
    rcases hget : assocGet st (suppKey ruleId c) with _ | v'
    · refine Or.inr (Or.inr ?_)
      by_cases hv : v c
      · exact ⟨.persisted, by simp [hv], Or.inl rfl, fun ⟨t, ht, _⟩ => Option.noConfusion ht⟩
      · exact ⟨.schemaDropped, by simp [hv], Or.inr rfl, fun ⟨t, ht, _⟩ => Option.noConfusion ht⟩
    · cases v' with
      | parsed t =>
        by_cases hlt : now - t < w * 60000000
        · refine Or.inr (Or.inl ⟨?_, t, rfl, hlt⟩)
          simp [hlt]
        · refine Or.inr (Or.inr ?_)
          by_cases hv : v c
          · refine ⟨.persisted, by simp [hlt, hv], Or.inl rfl, ?_⟩
            rintro ⟨t', ht', hlt'⟩
            obtain rfl : t = t' := by
              injection ht' with h
              injection h with h2
            exact hlt hlt'
          · refine ⟨.schemaDropped, by simp [hlt, hv], Or.inr rfl, ?_⟩
            rintro ⟨t', ht', hlt'⟩
            obtain rfl : t = t' := by
              injection ht' with h
              injection h with h2
            exact hlt hlt'
      | unparsable =>
        refine Or.inr (Or.inr ?_)
        by_cases hv : v c
        · refine ⟨.persisted, by simp [hv], Or.inl rfl, ?_⟩
          rintro ⟨t', ht', _⟩
          injection ht' with h
          exact StoredTs.noConfusion h
        · refine ⟨.schemaDropped, by simp [hv], Or.inr rfl, ?_⟩
          rintro ⟨t', ht', _⟩
          injection ht' with h
          exact StoredTs.noConfusion h

/-- While a key holds a stored time inside the suppression window, a whole
pipeline run persists nothing under that key and leaves its entry
untouched. -/
theorem runPipeline_suppressed_key (env : RoutingPolicyM) (cons : List String)
    (ruleId : String) (w now t : Int) (v : Synth → Bool) (K : String)
    (hlt : now - t < w * 60000000) :
    ∀ (cs : List Synth) (st : SuppSt), assocGet st K = some (.parsed t) →
      persistedCountK ruleId K (runPipeline env cons ruleId w now v st cs).2 = 0 ∧
      assocGet (runPipeline env cons ruleId w now v st cs).1 K = some (.parsed t) := by
  intro cs
  induction cs with
  | nil => exact fun st hst => ⟨rfl, hst⟩
  | cons c cs ih =>
    intro st hst
    rcases pipelineStep_cases env cons ruleId w now v st c with h1 | ⟨h2, _⟩ |
      ⟨res, h3, _, hno⟩
    · simp only [runPipeline, h1]
      rw [persistedCountK_cons]
      have := ih st hst
      simp [this.1, this.2]
    · simp only [runPipeline, h2]
      rw [persistedCountK_cons]
      have := ih st hst
      simp [this.1, this.2]
    · by_cases hkey : suppKey ruleId c = K
      · exact absurd ⟨t, hkey ▸ hst, hlt⟩ hno
      · simp only [runPipeline, h3]
        have hst' : assocGet (assocSet st (suppKey ruleId c) (.parsed now)) K =
            some (.parsed t) := by
          rw [assocGet_assocSet_other _ _ _ _ (fun he => hkey he.symm), hst]
        have := ih (assocSet st (suppKey ruleId c) (.parsed now)) hst'
        rw [persistedCountK_cons]
        simp [this.1, this.2, hkey]

/-- Within one pipeline run, at most one candidate per suppression key is
persisted, and a persisted key ends the run stamped with the current
time. -/
theorem runPipeline_once_per_key (env : RoutingPolicyM) (cons : List String)
    (ruleId : String) (w now : Int) (v : Synth → Bool) (K : String)
    (hw : 0 < w * 60000000) :
    ∀ (cs : List Synth) (st : SuppSt),
      persistedCountK ruleId K (runPipeline env cons ruleId w now v st cs).2 ≤ 1 ∧
      (1 ≤ persistedCountK ruleId K (runPipeline env cons ruleId w now v st cs).2 →
        assocGet (runPipeline env cons ruleId w now v st cs).1 K =
          some (.parsed now)) := by
  intro cs
  induction cs with
  | nil =>
    intro st
    refine ⟨Nat.zero_le 1, fun h => ?_⟩
    rw [show (runPipeline env cons ruleId w now v st []).2 = [] from rfl] at h
    simp [persistedCountK] at h
  | cons c cs ih =>
    intro st
    rcases pipelineStep_cases env cons ruleId w now v st c with h1 | ⟨h2, _⟩ |
      ⟨res, h3, _, _⟩
    · simp only [runPipeline, h1]
      rw [persistedCountK_cons, if_neg (fun hc => StepResult.noConfusion hc.2),
        Nat.add_zero]
      exact ih st
    · simp only [runPipeline, h2]
      rw [persistedCountK_cons, if_neg (fun hc => StepResult.noConfusion hc.2),
        Nat.add_zero]
      exact ih st
    · by_cases hkey : suppKey ruleId c = K
      · subst hkey
        have hsup := runPipeline_suppressed_key env cons ruleId w now now v
          (suppKey ruleId c) (by omega) cs
          (assocSet st (suppKey ruleId c) (.parsed now))
          (assocGet_assocSet_same ..)
        simp only [runPipeline, h3]
        rw [persistedCountK_cons]
        constructor
        · rw [hsup.1]
          split <;> omega
        · intro _
          exact hsup.2
      · simp only [runPipeline, h3]
        rw [persistedCountK_cons, if_neg (fun hc => hkey hc.1), Nat.add_zero]
        exact ih (assocSet st (suppKey ruleId c) (.parsed now))

/-- Two pipeline runs in a row, the second strictly inside the suppression
window of the first, persist at most one alert per suppression key in
total. -/
theorem twoRuns_at_most_once (env : RoutingPolicyM) (cons : List String)
    (ruleId : String) (w now1 now2 : Int) (v1 v2 : Synth → Bool) (K : String)
    (cs1 cs2 : List Synth) (st0 : SuppSt)
    (h0 : 0 ≤ now2 - now1) (hw : now2 - now1 < w * 60000000) :
    persistedCountK ruleId K (runPipeline env cons ruleId w now1 v1 st0 cs1).2 +
      persistedCountK ruleId K (runPipeline env cons ruleId w now2 v2
        (runPipeline env cons ruleId w now1 v1 st0 cs1).1 cs2).2 ≤ 1 := by
  have hwpos : 0 < w * 60000000 := by omega
  have hA1 := runPipeline_once_per_key env cons ruleId w now1 v1 K hwpos cs1 st0
  rcases Nat.eq_zero_or_pos
      (persistedCountK ruleId K (runPipeline env cons ruleId w now1 v1 st0 cs1).2) with
    hz | hpos
  · have hA2 := runPipeline_once_per_key env cons ruleId w now2 v2 K hwpos cs2
      (runPipeline env cons ruleId w now1 v1 st0 cs1).1
    omega
  · have hstK := hA1.2 hpos
    have hB := runPipeline_suppressed_key env cons ruleId w now2 now1 v2 K hw cs2
      (runPipeline env cons ruleId w now1 v1 st0 cs1).1 hstK
    omega

/-- Amended claim C7: two sweep invocations over the same configuration and
the same correlation state, the second one strictly inside the suppression
window of the first (interval strictly less than `window_minutes`), persist
an alert for any given suppression key — hence for any given unresolved
open — at most once in total. -/
theorem claim_C7_two_sweeps_at_most_once (cfg : SweepCfg) (fr : FileRead)
    (env : RoutingPolicyM) (v : Synth → Bool) (st0 : SuppSt) (now1 now2 : Int)
    (K : String) (h0 : 0 ≤ now2 - now1)
    (hw : now2 - now1 < (cfg.window_minutes.getD cfg.threshold_minutes) * 60000000) :
    countKey ((safeStr cfg.rule_id).getD "R-002-STEP_TIMEOUT") K
        (sweepTimeouts (some cfg) fr env v st0 now1).alerts +
      countKey ((safeStr cfg.rule_id).getD "R-002-STEP_TIMEOUT") K
        (sweepTimeouts (some cfg) fr env v
          (sweepTimeouts (some cfg) fr env v st0 now1).supp now2).alerts ≤ 1 := by
  by_cases hen : cfg.enabled
  · cases fr with
    | missing => simp [sweepTimeouts, hen, countKey]
    | blank => simp [sweepTimeouts, hen, countKey]
    | notJson => simp [sweepTimeouts, hen, countKey]
    | val j =>
      cases hgs : sweepGroups j with
      | none => simp [sweepTimeouts, hen, hgs, countKey]
      | some gs =>
        rcases hrun1 : runPipeline env cfg.consumers
            ((safeStr cfg.rule_id).getD "R-002-STEP_TIMEOUT")
            (cfg.window_minutes.getD cfg.threshold_minutes) now1 v st0
            (sweepCandidates ((safeStr cfg.pair_with_event_type).getD "STEP_COMPLETED")
              cfg.threshold_minutes now1 gs) with ⟨stF1, results1⟩
        have hs1 : sweepTimeouts (some cfg) (.val j) env v st0 now1 =
            ⟨0, results1.filterMap (fun r => stepAudit r.2),
              (results1.filter (fun r => r.2 = StepResult.persisted)).map (fun r => r.1),
              stF1⟩ := by
          simp only [sweepTimeouts, hen, Bool.not_true, Bool.false_eq_true, if_false,
            hgs, hrun1]
        rcases hrun2 : runPipeline env cfg.consumers
            ((safeStr cfg.rule_id).getD "R-002-STEP_TIMEOUT")
            (cfg.window_minutes.getD cfg.threshold_minutes) now2 v stF1
            (sweepCandidates ((safeStr cfg.pair_with_event_type).getD "STEP_COMPLETED")
              cfg.threshold_minutes now2 gs) with ⟨stF2, results2⟩
        have hs2 : sweepTimeouts (some cfg) (.val j) env v stF1 now2 =
            ⟨0, results2.filterMap (fun r => stepAudit r.2),
              (results2.filter (fun r => r.2 = StepResult.persisted)).map (fun r => r.1),
              stF2⟩ := by
          simp only [sweepTimeouts, hen, Bool.not_true, Bool.false_eq_true, if_false,
            hgs, hrun2]
        simp only [hs1, hs2]
        rw [countKey_filter_persisted, countKey_filter_persisted]
        have hmain := twoRuns_at_most_once env cfg.consumers
          ((safeStr cfg.rule_id).getD "R-002-STEP_TIMEOUT")
          (cfg.window_minutes.getD cfg.threshold_minutes) now1 now2 v v K
          (sweepCandidates ((safeStr cfg.pair_with_event_type).getD "STEP_COMPLETED")
            cfg.threshold_minutes now1 gs)
          (sweepCandidates ((safeStr cfg.pair_with_event_type).getD "STEP_COMPLETED")
            cfg.threshold_minutes now2 gs) st0 h0 hw
        simp only [hrun1] at hmain
        simp only [hrun2] at hmain
        exact hmain
  · simp [sweepTimeouts, hen, countKey]

/-- The sweep configuration of the C7 scenario: threshold 60 minutes,
suppression window 60 minutes, no consumers. -/
def c7cfg : SweepCfg := ⟨true, none, 60, none, [], some 60⟩

/-- A routing policy with a non-empty allow-list (as the constructor
requires) and no aliases. -/
def c7env : RoutingPolicyM := ⟨["QA_REVIEW"], []⟩

/-- Counterexample to C7 as stated: with a suppression window exactly as
long as the interval between the two invocations (60 minutes), both
invocations persist the same timeout alert — the suppression comparison is
strict (`delta < window`), so "window at least as long as the interval"
does not suppress the second emission; the alert is persisted twice, not
at most once. -/
theorem claim_C7_two_sweeps_counterexample :
    (1704078000000000 - 1704074400000000 : Int) ≤ 60 * 60000000 ∧
    (sweepTimeouts (some c7cfg) (writeAtomic scnDoc) c7env (fun _ => true) []
      1704074400000000).alerts = [scnSynth] ∧
    (sweepTimeouts (some c7cfg) (writeAtomic scnDoc) c7env (fun _ => true)
      (sweepTimeouts (some c7cfg) (writeAtomic scnDoc) c7env (fun _ => true) []
        1704074400000000).supp 1704078000000000).alerts = [scnSynth] :=
  ⟨by decide, by decide, by decide⟩

/-- Witness for the amended C7: with the same state and a 30-minute
interval strictly inside the 60-minute window, the timeout alert is
persisted at most once across the two invocations. -/
theorem claim_C7_two_sweeps_at_most_once_witness :
    countKey "R-002-STEP_TIMEOUT" (suppKey "R-002-STEP_TIMEOUT" scnSynth)
        (sweepTimeouts (some c7cfg) (writeAtomic scnDoc) c7env (fun _ => true) []
          1704074400000000).alerts +
      countKey "R-002-STEP_TIMEOUT" (suppKey "R-002-STEP_TIMEOUT" scnSynth)
        (sweepTimeouts (some c7cfg) (writeAtomic scnDoc) c7env (fun _ => true)
          (sweepTimeouts (some c7cfg) (writeAtomic scnDoc) c7env (fun _ => true) []
            1704074400000000).supp 1704076200000000).alerts ≤ 1 :=
  claim_C7_two_sweeps_at_most_once c7cfg (writeAtomic scnDoc) c7env (fun _ => true) []
    1704074400000000 1704076200000000 (suppKey "R-002-STEP_TIMEOUT" scnSynth)
    (by decide) (by decide)
